import Mathlib

/-!
# Verification of the serialitm acquisition loop and line reassembler

Shallow embedding of `src/main.rs` of the `serialitm` repository: a serial
ITM trace collector.  The embedded core is

* `handle_packet` — the channel filter plus line reassembler / timestamper
  (source lines 50–78);
* `drain` — the edge-triggered drain loop
  `while let Ok(p) = decoder.read_packet() { handle_packet(..)? }`
  (source lines 171–173), driven by a script of decoder results;
* `handle_event` — the per-event body of the acquisition loop
  (source lines 163–174), including the `is_closed` check.

Output is modelled as a list of tokens (`OutTok`), one token per `print!` /
`println!` call in the source; `render` interprets a token list as the text
that appears on the console, given the text of the (wall-clock dependent)
timestamp.  The timestamp token stands for `print!("{} ", now.format(..))`,
i.e. it includes the trailing space.  The exact text of the two diagnostic
lines (`println!` with a Debug formatter, whose precise output comes from
the foreign `itm` crate) is abbreviated in `render`; no theorem below
depends on it.

Machine integers: the ITM stimulus port is a `u8` in the source; ports and
channels are modelled as `Nat` (no arithmetic is ever performed on them,
only equality comparison).  Payload bytes are `Nat`s; `utf8Decode` embeds
`str::from_utf8`, i.e. strict UTF-8 validation (rejecting overlong forms,
surrogates and values above 0x10FFFF) as specified by RFC 3629, which is
exactly the check Rust's `str::from_utf8` performs.
-/

deriving instance DecidableEq for Except

namespace SerialItm

/-- The decoded packet kinds the program distinguishes: an ITM
instrumentation packet carrying a stimulus-port number and a byte payload,
or any other packet kind (the `o` arm of the `match` in `handle_packet`). -/
inductive Kind where
  | instrumentation (port : Nat) (payload : List Nat)
  | other
deriving DecidableEq

/-- The program's error enum (`enum Error` in `main.rs`).  The `std::io::Error`
payloads carried by `PollError` and `StdError` are dropped in the model. -/
inductive Error where
  | pollError
  | portClosed
  | stdError
deriving DecidableEq

/-- One console-output token per `print!`/`println!` call executed by
`handle_packet`:

* `ts` — `print!("{} ", now.format("%Y-%m-%d %H:%M:%S%.3f"))`, the
  timestamp followed by a space;
* `txt s` — `print!("{}", line)` for a split segment `s`;
* `nl` — `println!()`, a bare line terminator;
* `invalidDiag pl` — the `println!` diagnostic for a payload `pl` that is
  not valid UTF-8;
* `otherDiag p` — the `println!` diagnostic printed for a packet `p`
  rejected by the channel filter. -/
inductive OutTok where
  | ts
  | txt (s : List Char)
  | nl
  | invalidDiag (payload : List Nat)
  | otherDiag (p : Kind)
deriving DecidableEq

/-- Strict UTF-8 decoding of a byte sequence, as performed by Rust's
`str::from_utf8`: 1-byte `00-7F`; 2-byte `C2-DF` + continuation; 3-byte
`E0 A0-BF`, `E1-EC 80-BF`, `ED 80-9F` (no surrogates), `EE-EF 80-BF`;
4-byte `F0 90-BF`, `F1-F3 80-BF`, `F4 80-8F` (≤ U+10FFFF); a continuation
byte is `80-BF`.  Returns `none` exactly when `str::from_utf8` errors. -/
def utf8Decode : List Nat → Option (List Char)
  | [] => some []
  | b0 :: rest =>
    if b0 ≤ 0x7F then
      (utf8Decode rest).map (fun cs => Char.ofNat b0 :: cs)
    else if 0xC2 ≤ b0 ∧ b0 ≤ 0xDF then
      match rest with
      | b1 :: rest1 =>
        if 0x80 ≤ b1 ∧ b1 ≤ 0xBF then
          (utf8Decode rest1).map
            (fun cs => Char.ofNat ((b0 - 0xC0) * 0x40 + (b1 - 0x80)) :: cs)
        else none
      | [] => none
    else if 0xE0 ≤ b0 ∧ b0 ≤ 0xEF then
      match rest with
      | b1 :: b2 :: rest2 =>
        if (0x80 ≤ b1 ∧ b1 ≤ 0xBF) ∧
            (b0 = 0xE0 → 0xA0 ≤ b1) ∧ (b0 = 0xED → b1 ≤ 0x9F) ∧
            (0x80 ≤ b2 ∧ b2 ≤ 0xBF) then
          (utf8Decode rest2).map
            (fun cs =>
              Char.ofNat ((b0 - 0xE0) * 0x1000 + (b1 - 0x80) * 0x40 + (b2 - 0x80)) :: cs)
        else none
      | _ => none
    else if 0xF0 ≤ b0 ∧ b0 ≤ 0xF4 then
      match rest with
      | b1 :: b2 :: b3 :: rest3 =>
        if (0x80 ≤ b1 ∧ b1 ≤ 0xBF) ∧
            (b0 = 0xF0 → 0x90 ≤ b1) ∧ (b0 = 0xF4 → b1 ≤ 0x8F) ∧
            (0x80 ≤ b2 ∧ b2 ≤ 0xBF) ∧ (0x80 ≤ b3 ∧ b3 ≤ 0xBF) then
          (utf8Decode rest3).map
            (fun cs =>
              Char.ofNat ((b0 - 0xF0) * 0x40000 + (b1 - 0x80) * 0x1000 +
                (b2 - 0x80) * 0x40 + (b3 - 0x80)) :: cs)
        else none
      | _ => none
    else none

/-- Rust's `s.split("\n")` on the decoded text: split on the line-feed
character, where a trailing line feed yields a trailing empty segment and
`k` consecutive line feeds yield `k - 1` empty segments between them; the
result is always nonempty (`"".split("\n")` is `[""]`). -/
def splitLF : List Char → List (List Char)
  | [] => [[]]
  | c :: cs =>
    match splitLF cs with
    | [] => [[]]
    | s :: ss => if c = '\n' then [] :: s :: ss else (c :: s) :: ss

/-- The body of the `for (i, line) in s.split("\n").enumerate()` loop of
`handle_packet`, with the running `should_write_newline` flag threaded
through and the emitted tokens collected.  Faithful to the statement order
of the source: first the timestamp is printed if the flag is set (and the
flag cleared), then the segment text, then — only when `i > 0` — a line
terminator is printed and the flag is set. -/
def processSegs (flag : Bool) (i : Nat) : List (List Char) → List OutTok × Bool
  | [] => ([], flag)
  | seg :: rest =>
    let pre : List OutTok := if flag then [.ts] else []
    let flag1 : Bool := if flag then false else flag
    let post : List OutTok := if i > 0 then [.nl] else []
    let flag2 : Bool := if i > 0 then true else flag1
    let r := processSegs flag2 (i + 1) rest
    (pre ++ .txt seg :: (post ++ r.1), r.2)

/-- The accepted-packet branch of `handle_packet` (lines 53–75): decode the
payload as UTF-8 and run the split/timestamp loop, or print the
invalid-payload diagnostic leaving the flag untouched. -/
def reassemble (flag : Bool) (payload : List Nat) : List OutTok × Bool :=
  match utf8Decode payload with
  | some s => processSegs flag 0 (splitLF s)
  | none => ([.invalidDiag payload], flag)

/-- `handle_packet(p, itm_port, &mut should_write_newline)` (lines 50–79):
takes the packet, the configured stimulus port and the current flag, and
returns the program's `Result<(), Error>` paired (in the `Ok` case) with
the emitted output tokens and the new flag.  The `match` guard
`if i.port() == itm_port` is the `if` below; every arm of the source
returns `Ok(())`. -/
def handle_packet (p : Kind) (itm_port : Nat) (flag : Bool) :
    Except Error (List OutTok × Bool) :=
  match p with
  | .instrumentation c payload =>
    if c = itm_port then .ok (reassemble flag payload)
    else .ok ([.otherDiag (.instrumentation c payload)], flag)
  | .other => .ok ([.otherDiag .other], flag)

/-- The channel filter as a predicate: `handle_packet` runs the reassembler
on a packet exactly when this holds — the packet is an instrumentation
packet whose stimulus port equals the configured one. -/
def accepted : Kind → Nat → Bool
  | .instrumentation c _, itm_port => c = itm_port
  | .other, _ => false

/-- One result of `decoder.read_packet()`: a decoded packet, the
"no data currently available" error (`WouldBlock`), or any other decode
error (malformed framing).  Both error variants are `Err(_)` values of the
foreign decoder's result type. -/
inductive DecodeResult where
  | ok (p : Kind)
  | noData
  | decodeErr
deriving DecidableEq

/-- The drain loop `while let Ok(p) = decoder.read_packet() { handle_packet(..)? }`
(lines 171–173), run against a script of decoder results.  Returns the
packets dispatched to `handle_packet` (in order), the concatenated output,
the final flag, and the unconsumed rest of the script.  The `while let`
pattern match stops the loop at the *first* result that is not `Ok(_)`,
whatever error it is; the `?` on `handle_packet` propagates its error. -/
def drain (itm_port : Nat) (flag : Bool) :
    List DecodeResult → Except Error (List Kind × List OutTok × Bool × List DecodeResult)
  | [] => .ok ([], [], flag, [])
  | .ok p :: rest =>
    match handle_packet p itm_port flag with
    | .error e => .error e
    | .ok (out, flag1) =>
      match drain itm_port flag1 rest with
      | .error e => .error e
      | .ok (ps, outs, flag2, rem) => .ok (p :: ps, out ++ outs, flag2, rem)
  | .noData :: rest => .ok ([], [], flag, rest)
  | .decodeErr :: rest => .ok ([], [], flag, rest)

/-- A mio readiness state restricted to the three bits the program
registers interest in (`ready_of_interest`, unix: readable, hup, error). -/
structure Ready where
  readable : Bool
  hup : Bool
  error : Bool
deriving DecidableEq

/-- `is_closed` (unix, lines 27–30):
`state.contains(UnixReady::hup() | UnixReady::error())`.  mio's
`Ready::contains` tests that *all* bits of its argument are present, so
this is true exactly when hup *and* error are both set. -/
def is_closed (state : Ready) : Bool := state.hup && state.error

/-- The body of the acquisition loop for one readiness event on
`SERIAL_TOKEN` (lines 163–174): if `is_closed` holds the loop is left via
`Err(Error::PortClosed)?`; otherwise, if the event is readable, the
decoder is drained. -/
def handle_event (r : Ready) (itm_port : Nat) (flag : Bool)
    (script : List DecodeResult) :
    Except Error (List Kind × List OutTok × Bool × List DecodeResult) :=
  if is_closed r then .error .portClosed
  else if r.readable then drain itm_port flag script
  else .ok ([], [], flag, script)

/-- Sequential processing of a list of packets by `handle_packet`,
threading the flag and concatenating the output; this is what `drain` does
to the packets it dispatches.  (`handle_packet` never returns an error;
the `.error` branch is dead and returns a dummy value.) -/
def handlePackets (itm_port : Nat) (flag : Bool) : List Kind → List OutTok × Bool
  | [] => ([], flag)
  | p :: ps =>
    match handle_packet p itm_port flag with
    | .ok (out, flag1) =>
      let r := handlePackets itm_port flag1 ps
      (out ++ r.1, r.2)
    | .error _ => ([], flag)

/-- Rust `Debug` rendering of a byte slice: `[b0, b1, ...]` with the bytes
in decimal. -/
def fmtBytes (l : List Nat) : List Char :=
  let rec go : List Nat → List Char
    | [] => [']']
    | [b] => Nat.toDigits 10 b ++ [']']
    | b :: rest => Nat.toDigits 10 b ++ ',' :: ' ' :: go rest
  '[' :: go l

/-- Console text denoted by a token list, given the text `tsStr` of the
formatted timestamp (which depends on the wall clock).  The two diagnostic
lines are `println!`s with a `Debug` formatter; the `Debug` text of a
foreign packet kind is abbreviated here (no theorem depends on it). -/
def render (tsStr : List Char) : List OutTok → List Char
  | [] => []
  | .ts :: r => tsStr ++ ' ' :: render tsStr r
  | .txt s :: r => s ++ render tsStr r
  | .nl :: r => '\n' :: render tsStr r
  | .invalidDiag pl :: r =>
    ("Invalid payload: ".data ++ fmtBytes pl) ++ '\n' :: render tsStr r
  | .otherDiag k :: r =>
    ("o: ".data ++
      (match k with
        | .instrumentation c pl =>
          ("Instrumentation(".data ++ Nat.toDigits 10 c) ++
            (", ".data ++ fmtBytes pl) ++ [')']
        | .other => "Other".data)) ++ '\n' :: render tsStr r

/-! ## Helper lemmas -/

/-- The result of `splitLF` is never empty. -/
theorem splitLF_ne_nil (s : List Char) : splitLF s ≠ [] := by
  cases s with
  | nil => simp [splitLF]
  | cons c cs =>
    simp only [splitLF]
    split
    · simp
    · split <;> simp

/-- Splitting a line-feed-free text yields the single segment itself. -/
theorem splitLF_no_lf (s : List Char) (h : '\n' ∉ s) : splitLF s = [s] := by
  induction s with
  | nil => rfl
  | cons c cs ih =>
    have hc : c ≠ '\n' := fun hc => h (hc ▸ List.mem_cons_self c cs)
    have hcs : '\n' ∉ cs := fun hm => h (List.mem_cons_of_mem c hm)
    simp only [splitLF, ih hcs]
    simp [hc]

/-- A text contains a line feed exactly when its split has more than one
segment. -/
theorem mem_lf_iff_splitLF (s : List Char) : '\n' ∈ s ↔ 1 < (splitLF s).length := by
  induction s with
  | nil => simp [splitLF]
  | cons c cs ih =>
    cases h : splitLF cs with
    | nil => exact absurd h (splitLF_ne_nil cs)
    | cons a as =>
      by_cases hc : c = '\n'
      · subst hc
        simp [splitLF, h]
      · have hsp : splitLF (c :: cs) = (c :: a) :: as := by
          simp only [splitLF, h]
          rw [if_neg hc]
        rw [hsp, List.mem_cons, ih, h]
        simp only [List.length_cons]
        constructor
        · rintro (h1 | h1)
          · exact absurd h1.symm hc
          · exact h1
        · intro h1
          exact Or.inr h1

/-- One unfolding of the segment loop, projected on the flag: after the
first iteration the flag is true exactly if that iteration printed a line
terminator (index positive), and the loop continues at the next index. -/
theorem processSegs_snd_step (flag : Bool) (i : Nat) (seg : List Char)
    (rest : List (List Char)) :
    (processSegs flag i (seg :: rest)).2 =
      (processSegs (if 0 < i then true else false) (i + 1) rest).2 := by
  cases flag <;> by_cases h : 0 < i <;> simp [processSegs, h]

/-- Final value of the flag after the segment loop: it ends true exactly
when the loop's last iteration has a positive index, i.e. when it started
at a positive index or there is more than one segment. -/
theorem processSegs_snd (rest : List (List Char)) :
    ∀ (flag : Bool) (i : Nat) (seg : List Char),
      (processSegs flag i (seg :: rest)).2 = decide (0 < i ∨ rest ≠ []) := by
  induction rest with
  | nil =>
    intro flag i seg
    cases flag <;> simp [processSegs]
  | cons seg2 rest2 ih =>
    intro flag i seg
    rw [processSegs_snd_step, ih]
    simp

/-- The segment loop on a single segment, started at index 0: a timestamp
is emitted exactly if the flag was pending, and the flag ends cleared. -/
theorem processSegs_single (flag : Bool) (s : List Char) :
    processSegs flag 0 [s] = (if flag then [.ts, .txt s] else [.txt s], false) := by
  cases flag <;> simp [processSegs]

/-- `handle_packet` never returns an error: every arm of the source
function ends in `Ok(())`. -/
theorem handle_packet_isOk (p : Kind) (itm_port : Nat) (flag : Bool) :
    ∃ out flag1, handle_packet p itm_port flag = .ok (out, flag1) := by
  cases p with
  | instrumentation c pl =>
    by_cases h : c = itm_port
    · exact ⟨(reassemble flag pl).1, (reassemble flag pl).2, by simp [handle_packet, h]⟩
    · exact ⟨[.otherDiag (.instrumentation c pl)], flag, by simp [handle_packet, h]⟩
  | other => exact ⟨[.otherDiag .other], flag, rfl⟩

/-- An accepted packet whose payload decodes to line-feed-free text
contributes its text to the current line, with a timestamp exactly if one
was pending, and leaves the flag cleared. -/
theorem handle_packet_no_lf (pl : List Nat) (s : List Char) (itm_port : Nat)
    (flag : Bool) (hd : utf8Decode pl = some s) (hn : '\n' ∉ s) :
    handle_packet (.instrumentation itm_port pl) itm_port flag =
      .ok ((if flag then [.ts, .txt s] else [.txt s]), false) := by
  simp [handle_packet, reassemble, hd, splitLF_no_lf s hn, processSegs_single]

/-- Processing accepted line-feed-free fragments with no pending timestamp
emits exactly the fragments' text, in order, and keeps the flag cleared. -/
theorem handlePackets_no_lf (itm_port : Nat) (pls : List (List Nat))
    (ss : List (List Char))
    (h : List.Forall₂ (fun pl s => utf8Decode pl = some s ∧ '\n' ∉ s) pls ss) :
    handlePackets itm_port false (pls.map (Kind.instrumentation itm_port)) =
      (ss.map .txt, false) := by
  induction h with
  | nil => rfl
  | cons hps htl ih =>
    rename_i pl s pls' ss'
    simp [List.map_cons, handlePackets,
      handle_packet_no_lf pl s itm_port false hps.1 hps.2, ih]

/-- Draining a script of `n` decodable packets followed by a
"no data available" result dispatches exactly those `n` packets, in order,
threads the reassembler over them, and stops at the no-data result. -/
theorem drain_script (itm_port : Nat) (ps : List Kind) :
    ∀ (flag : Bool) (rest : List DecodeResult),
      drain itm_port flag (ps.map .ok ++ .noData :: rest) =
        .ok (ps, (handlePackets itm_port flag ps).1,
          (handlePackets itm_port flag ps).2, rest) := by
  induction ps with
  | nil => intro flag rest; rfl
  | cons p ps ih =>
    intro flag rest
    obtain ⟨out, flag1, h⟩ := handle_packet_isOk p itm_port flag
    simp [drain, handlePackets, h, ih flag1 rest]

/-! ## Claims -/

/-- C1: the claim says a decode error during a drain is swallowed and the
packet after it is still dispatched.  The code's `while let Ok(p)` exits on
the *first* `Err` of any kind, so at the failing script
`[Ok p1, DecodeError, Ok p2, NoData]` only `p1` is dispatched: `p2` is not
handed to the filter within this drain, contradicting the claim (and the
source's own comment that reading must continue until a `WouldBlock`). -/
theorem C1_decode_error_stops_drain :
    drain 0 true
        [.ok (Kind.instrumentation 0 [97]), .decodeErr,
          .ok (Kind.instrumentation 0 [98]), .noData] =
      .ok ([Kind.instrumentation 0 [97]], [OutTok.ts, OutTok.txt (['a'])],
        false, [.ok (Kind.instrumentation 0 [98]), .noData]) ∧
    Kind.instrumentation 0 [98] ∉ [Kind.instrumentation 0 [97]] := by
  decide

/-- C2: the claim says that for a segment of index > 0 the reassembler
first closes the previous line and then emits a timestamp before the
segment's text, so `"abc\ndef"` should yield `"abc"`, a newline, and a
timestamped `"def"`.  In the code the `println!` + flag-set comes *after*
the segment's text, so the interior line feed of `"abc\ndef"` is emitted
after `"def"` and `"def"` gets no timestamp: the output is
`"<TS> abcdef\n"`, not `"<TS> abc\n<TS> def"`, contradicting the claim
(and the source's own comment that the payload's newline is replaced
in its place by a timestamp and newline). -/
theorem C2_interior_line_feed_not_replaced :
    handle_packet (Kind.instrumentation 0 [97, 98, 99, 10, 100, 101, 102]) 0 true =
      .ok ([OutTok.ts, OutTok.txt ('a' :: 'b' :: 'c' :: []),
        OutTok.txt ('d' :: 'e' :: 'f' :: []), OutTok.nl], true) ∧
    render ("<TS>".data)
        [OutTok.ts, OutTok.txt ('a' :: 'b' :: 'c' :: []),
          OutTok.txt ('d' :: 'e' :: 'f' :: []), OutTok.nl] =
      ("<TS> abcdef\n".data) ∧
    ("<TS> abcdef\n".data) ≠ ("<TS> abc\n<TS> def".data) := by
  decide

/-- C3: after a single readable (and not closed) readiness event, the
loop drains the decoder exhaustively: a script of N decodable packets
followed by "no data available" gets all N packets dispatched to the
filter, in order, before the loop re-blocks (the drain stops exactly at
the no-data result, leaving the rest of the script unconsumed). -/
theorem C3_drain_dispatches_all_queued (r : Ready) (itm_port : Nat) (flag : Bool)
    (ps : List Kind) (rest : List DecodeResult)
    (hr : r.readable = true) (hcl : is_closed r = false) :
    handle_event r itm_port flag (ps.map .ok ++ .noData :: rest) =
      .ok (ps, (handlePackets itm_port flag ps).1,
        (handlePackets itm_port flag ps).2, rest) := by
  simp [handle_event, hcl, hr, drain_script]

/-- Witness for C3 at a concrete readable event with one queued packet. -/
theorem C3_drain_dispatches_all_queued_witness :
    handle_event ⟨true, false, false⟩ 0 true
        ([Kind.instrumentation 0 [97]].map .ok ++ .noData :: []) =
      .ok ([Kind.instrumentation 0 [97]],
        (handlePackets 0 true [Kind.instrumentation 0 [97]]).1,
        (handlePackets 0 true [Kind.instrumentation 0 [97]]).2, []) ∧
    handlePackets 0 true [Kind.instrumentation 0 [97]] =
      ([OutTok.ts, OutTok.txt (['a'])], false) :=
  ⟨C3_drain_dispatches_all_queued ⟨true, false, false⟩ 0 true
      [Kind.instrumentation 0 [97]] [] rfl rfl,
    by decide⟩

/-- C4: a packet reaches the reassembler if and only if it is an
instrumentation packet whose stimulus port equals the configured one;
`Other` packets are never accepted; every rejected packet goes to the
diagnostic arm instead of the reassembler. -/
theorem C4_filter_characterisation (c itm_port : Nat) (pl : List Nat) (flag : Bool) :
    (accepted (Kind.instrumentation c pl) itm_port = true ↔ c = itm_port) ∧
    accepted Kind.other itm_port = false ∧
    (c = itm_port →
      handle_packet (Kind.instrumentation c pl) itm_port flag =
        .ok (reassemble flag pl)) ∧
    (∀ p : Kind, accepted p itm_port = false →
      handle_packet p itm_port flag = .ok ([.otherDiag p], flag)) := by
  refine ⟨by simp [accepted], rfl, ?_, ?_⟩
  · intro h
    simp [handle_packet, h]
  · intro p hp
    cases p with
    | instrumentation c2 pl2 =>
      have hne : ¬(c2 = itm_port) := by
        intro heq
        simp [accepted, heq] at hp
      simp [handle_packet, hne]
    | other => rfl

/-- Witness for C4: an accepted packet runs the reassembler, a rejected
one prints the diagnostic; the reassembler output at the accepted input. -/
theorem C4_filter_characterisation_witness :
    handle_packet (Kind.instrumentation 5 [97]) 5 true = .ok (reassemble true [97]) ∧
    handle_packet Kind.other 5 true = .ok ([.otherDiag Kind.other], true) ∧
    reassemble true [97] = ([OutTok.ts, OutTok.txt (['a'])], false) :=
  ⟨(C4_filter_characterisation 5 5 [97] true).2.2.1 rfl,
    (C4_filter_characterisation 5 5 [97] true).2.2.2 Kind.other rfl,
    by decide⟩

/-- C5 counterexample: the claim says a rejected packet causes nothing to
be written to the output sink, but the code's catch-all arm prints a
diagnostic (`println!` of the packet) for every rejected packet: at the
concrete rejected packet `Other` the emitted output is nonempty. -/
theorem C5_counterexample :
    handle_packet Kind.other 0 true = .ok ([OutTok.otherDiag Kind.other], true) ∧
    ([OutTok.otherDiag Kind.other] : List OutTok) ≠ [] ∧
    render [] [OutTok.otherDiag Kind.other] ≠ [] := by
  decide

/-- C5 (amended): for every rejected packet (wrong channel or kind Other),
filtering does not fail and does not change `awaiting_line_start`, but one
diagnostic line showing the packet is written to the output sink. -/
theorem C5_rejected_packet_effect (p : Kind) (itm_port : Nat) (flag : Bool)
    (h : accepted p itm_port = false) :
    handle_packet p itm_port flag = .ok ([.otherDiag p], flag) := by
  cases p with
  | instrumentation c pl =>
    have hne : ¬(c = itm_port) := by
      intro heq
      simp [accepted, heq] at h
    simp [handle_packet, hne]
  | other => rfl

/-- Witness for C5 (amended) at the rejected packet `Other`. -/
theorem C5_rejected_packet_effect_witness :
    accepted Kind.other 7 = false ∧
    handle_packet Kind.other 7 false = .ok ([OutTok.otherDiag Kind.other], false) :=
  ⟨by decide, C5_rejected_packet_effect Kind.other 7 false (by decide)⟩

/-- C6 counterexample: the claim says any event signalling closure or
error terminates the loop with PortClosed.  `is_closed` embeds mio's
`contains(hup | error)`, which requires *both* bits; at an event with hup
set but error clear the loop does not terminate — it drains the queued
packet and returns Ok. -/
theorem C6_counterexample :
    is_closed ⟨true, true, false⟩ = false ∧
    handle_event ⟨true, true, false⟩ 0 true
        [.ok (Kind.instrumentation 0 [97]), .noData] =
      .ok ([Kind.instrumentation 0 [97]], [OutTok.ts, OutTok.txt (['a'])],
        false, []) ∧
    handle_event ⟨true, true, false⟩ 0 true
        [.ok (Kind.instrumentation 0 [97]), .noData] ≠
      Except.error Error.portClosed := by
  decide

/-- C6 (amended): whenever a readiness event has *both* the hup and error
bits set (the code's `is_closed` condition), the loop terminates
immediately with the PortClosed failure, for every script of pending
decoder results — nothing is drained first. -/
theorem C6_closed_event_terminates (r : Ready) (itm_port : Nat) (flag : Bool)
    (script : List DecodeResult) (h : is_closed r = true) :
    handle_event r itm_port flag script = .error .portClosed := by
  simp [handle_event, h]

/-- Witness for C6 (amended): a hup-and-error event with a decodable
packet pending still returns PortClosed at once. -/
theorem C6_closed_event_terminates_witness :
    is_closed ⟨false, true, true⟩ = true ∧
    handle_event ⟨false, true, true⟩ 0 true
        [.ok (Kind.instrumentation 0 [97]), .noData] =
      Except.error Error.portClosed :=
  ⟨by decide,
    C6_closed_event_terminates ⟨false, true, true⟩ 0 true
      [.ok (Kind.instrumentation 0 [97]), .noData] (by decide)⟩

/-- C7: a nonempty sequence of accepted fragments, none containing a line
feed, processed from `awaiting_line_start = true`, yields exactly one
timestamp (before the first fragment's text), the fragments' text in
order, and no line terminator; in particular `"abc"` then `"def\n"`
renders as the single line `<TS> abcdef\n` with one timestamp. -/
theorem C7_no_lf_single_timestamp (itm_port : Nat) (pls : List (List Nat))
    (ss : List (List Char))
    (h : List.Forall₂ (fun pl s => utf8Decode pl = some s ∧ '\n' ∉ s) pls ss)
    (hne : pls ≠ []) :
    handlePackets itm_port true (pls.map (Kind.instrumentation itm_port)) =
      (.ts :: ss.map .txt, false) ∧
    (OutTok.ts :: ss.map OutTok.txt).count OutTok.ts = 1 ∧
    OutTok.nl ∉ (OutTok.ts :: ss.map OutTok.txt) ∧
    (∀ tsStr, render tsStr
        (handlePackets 0 true
          [Kind.instrumentation 0 [97, 98, 99],
            Kind.instrumentation 0 [100, 101, 102, 10]]).1 =
      tsStr ++ ' ' :: 'a' :: 'b' :: 'c' :: 'd' :: 'e' :: 'f' :: '\n' :: []) := by
  cases h with
  | nil => exact absurd rfl hne
  | cons hps htl =>
    rename_i pl s pls' ss'
    refine ⟨?_, ?_, by simp, ?_⟩
    · simp [handlePackets, handle_packet_no_lf pl s itm_port true hps.1 hps.2,
        handlePackets_no_lf itm_port pls' ss' htl]
    · have h0 : (List.map OutTok.txt (s :: ss')).count OutTok.ts = 0 :=
        List.count_eq_zero.mpr (by simp)
      rw [List.count_cons_self, h0]
    · intro tsStr
      have hconc : (handlePackets 0 true
          [Kind.instrumentation 0 [97, 98, 99],
            Kind.instrumentation 0 [100, 101, 102, 10]]).1 =
          [OutTok.ts, OutTok.txt ('a' :: 'b' :: 'c' :: []),
            OutTok.txt ('d' :: 'e' :: 'f' :: []), OutTok.txt [], OutTok.nl] := by
        decide
      rw [hconc]
      simp [render]

/-- Witness for C7 at a single line-feed-free fragment. -/
theorem C7_no_lf_single_timestamp_witness :
    handlePackets 3 true ([[97]].map (Kind.instrumentation 3)) =
      (OutTok.ts :: ([(['a'])] : List (List Char)).map OutTok.txt, false) ∧
    handlePackets 3 true [Kind.instrumentation 3 [97]] =
      ([OutTok.ts, OutTok.txt (['a'])], false) :=
  ⟨(C7_no_lf_single_timestamp 3 [[97]] [(['a'])]
      (List.Forall₂.cons (by decide) List.Forall₂.nil) (by decide)).1,
    by decide⟩

/-- C8: the payload `"\n\n"` processed from `awaiting_line_start = true`
emits timestamp, line feed, timestamp, line feed — two empty timestamped
lines — and leaves the flag true. -/
theorem C8_double_line_feed :
    handle_packet (Kind.instrumentation 0 [10, 10]) 0 true =
      .ok ([OutTok.ts, OutTok.txt [], OutTok.txt [], OutTok.nl,
        OutTok.ts, OutTok.txt [], OutTok.nl], true) ∧
    (∀ tsStr, render tsStr
        [OutTok.ts, OutTok.txt [], OutTok.txt [], OutTok.nl,
          OutTok.ts, OutTok.txt [], OutTok.nl] =
      tsStr ++ ' ' :: '\n' :: (tsStr ++ ' ' :: '\n' :: [])) := by
  refine ⟨by decide, ?_⟩
  intro tsStr
  simp [render]

/-- C9: an accepted payload that is not valid UTF-8 produces exactly the
diagnostic line, leaves `awaiting_line_start` unchanged, and the call
still returns Ok (the session is not terminated). -/
theorem C9_invalid_utf8_diagnostic (pl : List Nat) (itm_port : Nat) (flag : Bool)
    (h : utf8Decode pl = none) :
    handle_packet (Kind.instrumentation itm_port pl) itm_port flag =
      .ok ([.invalidDiag pl], flag) := by
  simp [handle_packet, reassemble, h]

/-- Witness for C9 at the invalid byte 0xFF. -/
theorem C9_invalid_utf8_diagnostic_witness :
    utf8Decode [255] = none ∧
    handle_packet (Kind.instrumentation 0 [255]) 0 false =
      .ok ([OutTok.invalidDiag [255]], false) :=
  ⟨by decide, C9_invalid_utf8_diagnostic [255] 0 false (by decide)⟩

/-- C10: for an accepted packet whose payload decodes to UTF-8 text `s`,
the flag returned by `handle_packet` is true exactly when `s` contains a
line feed. -/
theorem C10_flag_iff_line_feed (pl : List Nat) (s : List Char) (itm_port : Nat)
    (flag : Bool) (out : List OutTok) (flag2 : Bool)
    (hd : utf8Decode pl = some s)
    (hh : handle_packet (Kind.instrumentation itm_port pl) itm_port flag =
      .ok (out, flag2)) :
    flag2 = true ↔ '\n' ∈ s := by
  have h1 : handle_packet (Kind.instrumentation itm_port pl) itm_port flag =
      .ok (processSegs flag 0 (splitLF s)) := by
    simp [handle_packet, reassemble, hd]
  have h2 : processSegs flag 0 (splitLF s) = (out, flag2) :=
    Except.ok.inj (h1.symm.trans hh)
  have h3 : flag2 = (processSegs flag 0 (splitLF s)).2 := by rw [h2]
  obtain ⟨seg, rest, hsp⟩ : ∃ seg rest, splitLF s = seg :: rest := by
    cases hq : splitLF s with
    | nil => exact absurd hq (splitLF_ne_nil s)
    | cons a as => exact ⟨a, as, rfl⟩
  rw [hsp, processSegs_snd] at h3
  rw [mem_lf_iff_splitLF, hsp]
  subst h3
  cases rest <;> simp

/-- Witness for C10 at the payload `"\n"`: the flag ends true and the
decoded text contains a line feed. -/
theorem C10_flag_iff_line_feed_witness :
    (true = true ↔ '\n' ∈ (['\n'])) ∧
    handle_packet (Kind.instrumentation 0 [10]) 0 true =
      .ok ([OutTok.ts, OutTok.txt [], OutTok.txt [], OutTok.nl], true) :=
  ⟨C10_flag_iff_line_feed [10] (['\n']) 0 true
      [OutTok.ts, OutTok.txt [], OutTok.txt [], OutTok.nl] true
      (by decide) (by decide),
    by decide⟩

end SerialItm
